import Mathlib

/-!
# Shallow embedding of `pkg/dns/dns.go` and `pkg/render/tiers/tiers.go`

Go `string` values are embedded as Lean `String`s, Go slices as `List`s
(every `append` in the embedded code allocates, so no two slices alias),
Go `(value, error)` results as pairs whose second component is an
`Option`, with `none` for the `nil` error.
-/

set_option autoImplicit false

namespace dns

/-! ## Package `dns` -/

/-- Go `error` values seen by package `dns`: either a value handed over by a
collaborator (`os.Open`, `bufio.Scanner`, `client.Client`) or one built
locally by `fmt.Errorf` from a message. -/
inductive GoError (ε : Type) where
  | external (e : ε)
  | errorf (msg : String)
  deriving DecidableEq, Repr

def DefaultResolveConfPath : String := "/etc/resolv.conf"

def DefaultClusterDomain : String := "cluster.local"

/-- The class `\s` of Go's `regexp` syntax: `[\t\n\f\r ]`. -/
def isSpace (c : Char) : Bool :=
  c == '\t' || c == '\n' || c == Char.ofNat 12 || c == '\r' || c == ' '

/-- Match the literal `lit` at the head of `s`; the result is what follows it. -/
def matchLit : List Char → List Char → Option (List Char)
  | [], s => some s
  | _ :: _, [] => none
  | l :: lit, c :: s => if l = c then matchLit lit s else none

/-- The group `([^\s]*)`: the greedy run of non-whitespace characters at the
head of `s`. -/
def matchGroup (s : List Char) : List Char :=
  s.takeWhile (fun c => !isSpace c)

/-- The tail `\ssvc\.([^\s]*)` of the pattern at the head of `s`; the result
is the text of the group. -/
def matchSvc : List Char → Option (List Char)
  | [] => none
  | c :: s =>
    if isSpace c then
      match matchLit "svc.".data s with
      | some rest => some (matchGroup rest)
      | none => none
    else none

/-- The part `.*?\ssvc\.([^\s]*)` of the pattern: the lazy star first tries
the tail at the current position and only then lets `.` (any character but
a newline) consume one more character. -/
def matchLazy : List Char → Option (List Char)
  | [] => none
  | c :: s =>
    match matchSvc (c :: s) with
    | some g => some g
    | none => if c = '\n' then none else matchLazy s

/-- The call `reg.FindStringSubmatch(line)` for
`reg = ^search.*?\ssvc\.([^\s]*)`. The result `none` stands for the `nil`
slice (`len(match) = 0`), and `some g` for a match whose element `match[1]`
is `g`. -/
def FindStringSubmatch (line : String) : Option String :=
  match matchLit "search".data line.data with
  | some rest => (matchLazy rest).map String.mk
  | none => none

/-- What `os.Open` and the `bufio.Scanner` over the opened file deliver:
either the open fails with an error, or the scanner yields the lines in file
order and `scanner.Err()` is `scanErr` once `Scan` has returned false. -/
inductive ResolvConf (ε : Type) where
  | openFails (err : ε)
  | opened (lines : List String) (scanErr : Option ε)

/-- One pass of the body of the `for scanner.Scan()` loop. -/
def scanStep (clusterDomain : String) (text : String) : String :=
  match FindStringSubmatch text with
  | some g => g
  | none => clusterDomain

def GetClusterDomain {ε : Type} (resolvConf : ResolvConf ε) : String × Option (GoError ε) :=
  match resolvConf with
  | .openFails err => ("", some (.external err))
  | .opened lines scanErr =>
    let clusterDomain := lines.foldl scanStep ""
    match scanErr with
    | some err => ("", some (.external err))
    | none =>
      if clusterDomain = "" then
        ("", some (.errorf "failed to find cluster domain in resolv.conf"))
      else
        (clusterDomain, none)

/-- The verb-by-verb expansion done by `fmt.Sprintf` for formats whose only
verb is `%s` and that come with one string operand per verb, which is how
this package calls it. -/
def sprintfAux : List Char → List String → List Char
  | [], _ => []
  | [c], _ => [c]
  | c :: d :: fmt, args =>
    if c = '%' ∧ d = 's' then
      match args with
      | a :: args => a.data ++ sprintfAux fmt args
      | [] => "%!s(MISSING)".data ++ sprintfAux fmt []
    else c :: sprintfAux (d :: fmt) args

def Sprintf (format : String) (args : List String) : String :=
  String.mk (sprintfAux format.data args)

def GetServiceDNSNames (name namespace_ clusterDomain : String) : List String :=
  [ name,
    Sprintf "%s.%s" [name, namespace_],
    Sprintf "%s.%s.svc" [name, namespace_],
    Sprintf "%s.%s.svc.%s" [name, namespace_, clusterDomain] ]

/-- The type `client.ObjectKey`. -/
structure ObjectKey where
  Namespace : String := ""
  Name : String := ""
  deriving DecidableEq, Repr

/-- The one method of `client.Client` that this package calls. The client is
a collaborator with state `σ`; `Get key obj` fills the object `obj` it is
handed and returns it with its error. -/
structure Client (σ ε Service : Type) where
  Get : ObjectKey → Service → σ → (Service × Option ε) × σ

/-- The argument `zero` is the value of `&corev1.Service{}`. -/
def GetClusterDNSService {σ ε Service : Type} (k8sClient : Client σ ε Service) (zero : Service)
    (isOpenShift : Bool) (st : σ) : (Option Service × Option ε) × σ :=
  let clusterDNSServiceName := if isOpenShift then "openshift-dns" else "kube-dns"
  let clusterDNSService := zero
  let ((clusterDNSService, err), st) :=
    k8sClient.Get { Name := clusterDNSServiceName } clusterDNSService st
  match err with
  | some e => ((none, some e), st)
  | none => ((some clusterDNSService, err), st)

structure DNSNodeLocalCacheState where
  Enabled : Bool
  ClusterDNSServiceIP : String
  deriving DecidableEq, Repr

end dns

namespace tiers

/-! ## Package `tiers` -/

/-- The constants and the one function value of the packages
`networkpolicy`, `render`, `common` and `rmeta` that `tiers.go` reads; their
declarations lie outside the embedded sources, so the embedding is
parametric in them. -/
structure Imports where
  TigeraComponentTierName : String
  TigeraComponentPolicyPrefix : String
  GuardianNamespace : String
  ComplianceNamespace : String
  DexNamespace : String
  ElasticsearchNamespace : String
  LogCollectorNamespace : String
  IntrusionDetectionNamespace : String
  KibanaNamespace : String
  ManagerNamespace : String
  TigeraPrometheusNamespace : String
  APIServerNamespaceEnterprise : String
  deriving DecidableEq, Repr

/-- The package-level `float64` variables whose addresses are stored in the
`Order` fields. -/
inductive OrderVar where
  | defaultTierOrder
  | HighPrecedenceOrder
  deriving DecidableEq, Repr

structure TypeMeta where
  Kind : String := ""
  APIVersion : String := ""
  deriving DecidableEq, Repr

structure ObjectMeta where
  Name : String := ""
  Namespace : String := ""
  Labels : List (String × String) := []
  deriving DecidableEq, Repr

inductive Action where
  | Allow
  | Deny
  | Log
  | Pass
  deriving DecidableEq, Repr

/-- The fields of `v3.EntityRule` that `tiers.go` sets; a field left out of a
Go composite literal has its zero value. -/
structure EntityRule where
  NamespaceSelector : String := ""
  Selector : String := ""
  deriving DecidableEq, Repr

structure Rule where
  Action : Action
  Source : EntityRule := {}
  Destination : EntityRule := {}
  deriving DecidableEq, Repr

inductive PolicyType where
  | PolicyTypeIngress
  | PolicyTypeEgress
  deriving DecidableEq, Repr

structure TierSpec where
  Order : Option OrderVar := none
  deriving DecidableEq, Repr

structure Tier where
  TypeMeta : TypeMeta := {}
  ObjectMeta : ObjectMeta := {}
  Spec : TierSpec := {}
  deriving DecidableEq, Repr

structure NetworkPolicySpec where
  Order : Option OrderVar := none
  Tier : String := ""
  Selector : String := ""
  Ingress : List Rule := []
  Egress : List Rule := []
  Types : List PolicyType := []
  deriving DecidableEq, Repr

structure NetworkPolicy where
  TypeMeta : TypeMeta := {}
  ObjectMeta : ObjectMeta := {}
  Spec : NetworkPolicySpec := {}
  deriving DecidableEq, Repr

/-- The values of interface type `client.Object` that `tiers.go` builds. -/
inductive Object where
  | tier (t : Tier)
  | networkPolicy (p : NetworkPolicy)
  deriving DecidableEq, Repr

/-- Modelled from the spec: `networkpolicy.ToRuntimeObjects`, declared
outside the embedded sources, hands each policy it is given over as an
object, in order (the create or delete set "receives the two
node-local-cache access policies"). -/
def ToRuntimeObjects (objs : List NetworkPolicy) : List Object :=
  objs.map Object.networkPolicy

def ClusterDNSPolicyName (I : Imports) : String :=
  I.TigeraComponentPolicyPrefix ++ "cluster-dns"

def localDNSCacheAccessPolicyName (I : Imports) : String :=
  I.TigeraComponentPolicyPrefix ++ "local-dns-access"

def clusterFromLocalDNAcessSPolicyName (I : Imports) : String :=
  I.TigeraComponentPolicyPrefix ++ "cluster-from-local-dns-access"

/-- One pass of the `range` loop of `createDNSIngressNamespaceSelector`. -/
def selectorStep (len : Int) (builder : String) (entry : Nat × String) : String :=
  let builder := builder.push (Char.ofNat 39)
  let builder := builder ++ entry.2
  let builder := builder.push (Char.ofNat 39)
  if (entry.1 : Int) ≠ len - 1 then builder.push ',' else builder

def createDNSIngressNamespaceSelector (namespaces : List String) : String :=
  let builder := "" ++ "projectcalico.org/namespace in \x7b"
  let builder := namespaces.enum.foldl (selectorStep namespaces.length) builder
  builder.push (Char.ofNat 125)

def DNSIngressNamespaceSelector (I : Imports) : String :=
  createDNSIngressNamespaceSelector
    [ I.GuardianNamespace,
      I.ComplianceNamespace,
      I.DexNamespace,
      I.ElasticsearchNamespace,
      I.LogCollectorNamespace,
      I.IntrusionDetectionNamespace,
      I.KibanaNamespace,
      I.ManagerNamespace,
      I.TigeraPrometheusNamespace,
      "tigera-skraper",
      I.APIServerNamespaceEnterprise ]

structure Config where
  Openshift : Bool
  DNSLocalCacheState : Option dns.DNSNodeLocalCacheState
  deriving DecidableEq, Repr

structure tiersComponent where
  cfg : Config
  deriving DecidableEq, Repr

def Tiers (cfg : Config) : tiersComponent :=
  { cfg := cfg }

def tiersComponent.getPolicyNamespaceAndSelector (t : tiersComponent) : String × String :=
  if t.cfg.Openshift then
    ("dns.operator.openshift.io/daemonset-dns == 'default'", "openshift-dns")
  else
    ("k8s-app == 'kube-dns'", "kube-system")

def tiersComponent.allowTigeraTier (I : Imports) (_t : tiersComponent) : Tier :=
  { TypeMeta := { Kind := "Tier", APIVersion := "projectcalico.org/v3" }
    ObjectMeta :=
      { Name := I.TigeraComponentTierName
        Labels := [("projectcalico.org/system-tier", "true")] }
    Spec := { Order := some OrderVar.defaultTierOrder } }

def tiersComponent.allowTigeraClusterDNSPolicy (I : Imports) (t : tiersComponent) :
    NetworkPolicy :=
  let (dnsPolicyNamespace, dnsPolicySelector) := t.getPolicyNamespaceAndSelector
  { TypeMeta := { Kind := "NetworkPolicy", APIVersion := "projectcalico.org/v3" }
    ObjectMeta :=
      { Name := ClusterDNSPolicyName I
        Namespace := dnsPolicyNamespace }
    Spec :=
      { Order := some OrderVar.HighPrecedenceOrder
        Tier := I.TigeraComponentTierName
        Selector := dnsPolicySelector
        Ingress :=
          [ { Action := Action.Allow
              Source :=
                { NamespaceSelector := "all()"
                  Selector := DNSIngressNamespaceSelector I } },
            { Action := Action.Pass } ]
        Egress := [ { Action := Action.Allow } ]
        Types := [PolicyType.PolicyTypeIngress, PolicyType.PolicyTypeEgress] } }

def tiersComponent.allowTigeraClusterDNSNodeLocalCachePolicy (I : Imports)
    (t : tiersComponent) : List NetworkPolicy :=
  let (dnsPolicyNamespace, dnsPolicySelector) := t.getPolicyNamespaceAndSelector
  let localDNSCacheAccess : NetworkPolicy :=
    { TypeMeta := { Kind := "NetworkPolicy", APIVersion := "projectcalico.org/v3" }
      ObjectMeta :=
        { Name := localDNSCacheAccessPolicyName I
          Namespace := dnsPolicyNamespace }
      Spec :=
        { Order := some OrderVar.HighPrecedenceOrder
          Tier := I.TigeraComponentTierName
          Selector := dnsPolicySelector } }
  let kubeDNSAcceptRequestAccess : NetworkPolicy :=
    { TypeMeta := { Kind := "NetworkPolicy", APIVersion := "projectcalico.org/v3" }
      ObjectMeta :=
        { Name := clusterFromLocalDNAcessSPolicyName I
          Namespace := dnsPolicyNamespace }
      Spec :=
        { Order := some OrderVar.HighPrecedenceOrder
          Tier := I.TigeraComponentTierName
          Selector := dnsPolicySelector } }
  [localDNSCacheAccess, kubeDNSAcceptRequestAccess]

def tiersComponent.Objects (I : Imports) (t : tiersComponent) : List Object × List Object :=
  let objsToCreate : List Object := [Object.tier (t.allowTigeraTier I)]
  let objsToDelete : List Object := []
  if t.cfg.DNSLocalCacheState.isSome then
    let objsToCreate :=
      objsToCreate ++ ToRuntimeObjects (t.allowTigeraClusterDNSNodeLocalCachePolicy I)
    let objsToDelete := objsToDelete ++ [Object.networkPolicy (t.allowTigeraClusterDNSPolicy I)]
    (objsToCreate, objsToDelete)
  else
    let objsToCreate := objsToDelete ++ [Object.networkPolicy (t.allowTigeraClusterDNSPolicy I)]
    let objsToDelete :=
      objsToCreate ++ ToRuntimeObjects (t.allowTigeraClusterDNSNodeLocalCachePolicy I)
    (objsToCreate, objsToDelete)

def tiersComponent.Ready (_t : tiersComponent) : Bool := true

end tiers

namespace tiers

/-! ## Vocabulary of the claims about `tiersComponent.Objects` -/

/-- An object of kind `Tier`. -/
def Object.isTier : Object → Bool
  | .tier _ => true
  | .networkPolicy _ => false

/-- The identity under which an applier tells objects apart: kind, name and
namespace. -/
def Object.identity : Object → String × String × String
  | .tier t => (t.TypeMeta.Kind, t.ObjectMeta.Name, t.ObjectMeta.Namespace)
  | .networkPolicy p => (p.TypeMeta.Kind, p.ObjectMeta.Name, p.ObjectMeta.Namespace)

/-- The configuration with `DNSLocalCacheState` absent (`nil`). -/
def absentConfig (openshift : Bool) : Config :=
  { Openshift := openshift, DNSLocalCacheState := none }

end tiers

namespace dns

/-! ## Vocabulary of the claims about package `dns` -/

/-- The suffixes captured from the lines that match the pattern, in file
order. -/
def captures (lines : List String) : List String :=
  lines.filterMap FindStringSubmatch

/-- The suffix captured from the last matching line in file order, when some
line matches. -/
def lastCapture (lines : List String) : Option String :=
  (captures lines).getLast?

/-- The error built by `GetClusterDomain` when it has no cluster domain to
return. -/
def notFound {ε : Type} : GoError ε :=
  .errorf "failed to find cluster domain in resolv.conf"

/-- A directory that answers every `Get` from the lookup function `lookup`
and whose state is the sequence of the keys it has been asked for. On an
error it leaves the object it was handed as it is. -/
def lookupClient {ε Service : Type} (lookup : ObjectKey → Except ε Service) :
    Client (List ObjectKey) ε Service :=
  { Get := fun key obj asked =>
      match lookup key with
      | .ok found => ((found, none), asked ++ [key])
      | .error e => ((obj, some e), asked ++ [key]) }

/-- The key that `GetClusterDNSService` is to ask for. -/
def clusterDNSServiceKey (isOpenShift : Bool) : ObjectKey :=
  { Namespace := "", Name := if isOpenShift then "openshift-dns" else "kube-dns" }

end dns

namespace tiers

/-! ## Further vocabulary of the claims about package `tiers` -/

/-- The network policies among a sequence of objects, in order. -/
def policiesOf (objs : List Object) : List NetworkPolicy :=
  objs.filterMap fun
    | .tier _ => none
    | .networkPolicy p => some p

/-- The pair of the namespace and the selector of a policy. -/
def namespaceAndSelector (p : NetworkPolicy) : String × String :=
  (p.ObjectMeta.Namespace, p.Spec.Selector)

/-- A name wrapped in single quotes, with no escaping. -/
def quoted (name : String) : String :=
  "'" ++ name ++ "'"

/-- The selector as the claim words it: the opening text, the quoted names
joined by a single comma, the closing brace. -/
def selectorSpec (namespaces : List String) : String :=
  "projectcalico.org/namespace in \x7b" ++ String.intercalate "," (namespaces.map quoted) ++ "\x7d"

end tiers

namespace dns

/-! ## Further vocabulary of the claims about package `dns` -/

/-- The string `a` is a prefix of `b` and shorter than it. -/
def ProperlyBegins (a b : String) : Prop :=
  a.data <+: b.data ∧ a.data.length < b.data.length

instance (a b : String) : Decidable (ProperlyBegins a b) := by
  unfold ProperlyBegins
  infer_instance

/-- A whitespace-preceded `svc.` token starts at offset `i` of `s`: the
character at `i` is whitespace and `svc.` follows it. -/
def svcTokenAt (s : List Char) (i : Nat) : Bool :=
  match s.drop i with
  | [] => false
  | w :: r => isSpace w && "svc.".data.isPrefixOf r

/-- The suffix of the token that starts at offset `i` of `s`: the run of
non-whitespace characters after the whitespace character and `svc.`. -/
def svcSuffixAt (s : List Char) (i : Nat) : List Char :=
  (s.drop (i + 5)).takeWhile (fun c => !isSpace c)

end dns

/-! ## Theorems about package `tiers` -/

namespace tiers

/-- C1, the code at the failing input: when `DNSLocalCacheState` is absent,
`toCreate` is the one-element sequence holding the cluster-DNS policy, so the
tier-definition object built by `allowTigeraTier` is not an element of
`toCreate`, and no object of kind `Tier` is in `toCreate` at all. -/
theorem Objects_absent_drops_tier (I : Imports) (openshift : Bool) :
    ((Tiers (absentConfig openshift)).Objects I).1
        = [Object.networkPolicy ((Tiers (absentConfig openshift)).allowTigeraClusterDNSPolicy I)]
      ∧ Object.tier ((Tiers (absentConfig openshift)).allowTigeraTier I)
          ∉ ((Tiers (absentConfig openshift)).Objects I).1
      ∧ ∀ o ∈ ((Tiers (absentConfig openshift)).Objects I).1, o.isTier = false := by
  refine ⟨rfl, ?_, ?_⟩
  · simp [tiersComponent.Objects, Tiers, absentConfig]
  · simp [tiersComponent.Objects, Tiers, absentConfig, Object.isTier]

/-- C2, the code at the failing input: when `DNSLocalCacheState` is absent,
the cluster-DNS policy is an element of both `toCreate` and `toDelete`, so
one object identity occurs on both sides and the two node-local-cache
policies are on the same side as the cluster-DNS policy. -/
theorem Objects_absent_cluster_dns_on_both_sides (I : Imports) (openshift : Bool) :
    Object.networkPolicy ((Tiers (absentConfig openshift)).allowTigeraClusterDNSPolicy I)
        ∈ ((Tiers (absentConfig openshift)).Objects I).1
      ∧ Object.networkPolicy ((Tiers (absentConfig openshift)).allowTigeraClusterDNSPolicy I)
        ∈ ((Tiers (absentConfig openshift)).Objects I).2
      ∧ (∃ o ∈ ((Tiers (absentConfig openshift)).Objects I).1,
          ∃ o' ∈ ((Tiers (absentConfig openshift)).Objects I).2, o.identity = o'.identity)
      ∧ ∀ p ∈ (Tiers (absentConfig openshift)).allowTigeraClusterDNSNodeLocalCachePolicy I,
          Object.networkPolicy p ∈ ((Tiers (absentConfig openshift)).Objects I).2 := by
  refine ⟨?_, ?_, ?_, ?_⟩
  · simp [tiersComponent.Objects, Tiers, absentConfig]
  · simp [tiersComponent.Objects, Tiers, absentConfig]
  · refine ⟨Object.networkPolicy
        ((Tiers (absentConfig openshift)).allowTigeraClusterDNSPolicy I), ?_,
      Object.networkPolicy
        ((Tiers (absentConfig openshift)).allowTigeraClusterDNSPolicy I), ?_, rfl⟩ <;>
      simp [tiersComponent.Objects, Tiers, absentConfig]
  · intro p hp
    simp only [tiersComponent.Objects, Tiers, absentConfig, ToRuntimeObjects]
    simp only [Option.isSome_none, Bool.false_eq_true, if_false, List.nil_append,
      List.mem_append, List.mem_map]
    exact Or.inr ⟨p, hp, rfl⟩

/-- C3, the code at the failing input: when `DNSLocalCacheState` is absent,
`Objects` returns `toCreate = [cluster-DNS policy]` (without the
tier-definition object) and `toDelete = [cluster-DNS policy, local-dns-access
policy, cluster-from-local-dns-access policy]` (three elements instead of two),
which is not the pair the claim describes. -/
theorem Objects_absent_eq (I : Imports) (openshift : Bool) :
    (∃ d p q,
        d = (Tiers (absentConfig openshift)).allowTigeraClusterDNSPolicy I
        ∧ (Tiers (absentConfig openshift)).allowTigeraClusterDNSNodeLocalCachePolicy I = [p, q]
        ∧ d.ObjectMeta.Name = I.TigeraComponentPolicyPrefix ++ "cluster-dns"
        ∧ p.ObjectMeta.Name = I.TigeraComponentPolicyPrefix ++ "local-dns-access"
        ∧ q.ObjectMeta.Name = I.TigeraComponentPolicyPrefix ++ "cluster-from-local-dns-access"
        ∧ (Tiers (absentConfig openshift)).Objects I
            = ([Object.networkPolicy d],
               [Object.networkPolicy d, Object.networkPolicy p, Object.networkPolicy q])
        ∧ (Tiers (absentConfig openshift)).Objects I
            ≠ ([Object.tier ((Tiers (absentConfig openshift)).allowTigeraTier I),
                  Object.networkPolicy d],
               [Object.networkPolicy p, Object.networkPolicy q])) := by
  refine ⟨_, _, _, rfl, rfl, rfl, rfl, rfl, rfl, ?_⟩
  simp [tiersComponent.Objects, Tiers, absentConfig, ToRuntimeObjects]

/-- C4: for every `Config` whose `DNSLocalCacheState` is present, `Objects`
returns `toCreate = [tier-definition object, local-dns-access policy,
cluster-from-local-dns-access policy]` and `toDelete = [cluster-DNS policy]`,
whatever the `Enabled` flag and the IP of the state. -/
theorem Objects_present_eq (I : Imports) (cfg : Config)
    (h : cfg.DNSLocalCacheState ≠ none) :
    ∃ p q,
      (Tiers cfg).allowTigeraClusterDNSNodeLocalCachePolicy I = [p, q]
      ∧ p.ObjectMeta.Name = I.TigeraComponentPolicyPrefix ++ "local-dns-access"
      ∧ q.ObjectMeta.Name = I.TigeraComponentPolicyPrefix ++ "cluster-from-local-dns-access"
      ∧ ((Tiers cfg).allowTigeraClusterDNSPolicy I).ObjectMeta.Name
          = I.TigeraComponentPolicyPrefix ++ "cluster-dns"
      ∧ (Tiers cfg).Objects I
          = ([Object.tier ((Tiers cfg).allowTigeraTier I),
                Object.networkPolicy p, Object.networkPolicy q],
             [Object.networkPolicy ((Tiers cfg).allowTigeraClusterDNSPolicy I)]) := by
  obtain ⟨openshift, st⟩ := cfg
  cases st with
  | none => exact absurd rfl h
  | some st => exact ⟨_, _, rfl, rfl, rfl, rfl, rfl⟩

/-- Witness for C4: a present state with `Enabled = false` and an empty IP. -/
theorem Objects_present_eq_witness :
    ∃ p q,
      (Tiers ⟨true, some ⟨false, ""⟩⟩).allowTigeraClusterDNSNodeLocalCachePolicy
          ⟨"t", "p.", "", "", "", "", "", "", "", "", "", ""⟩ = [p, q]
      ∧ p.ObjectMeta.Name = "p." ++ "local-dns-access"
      ∧ q.ObjectMeta.Name = "p." ++ "cluster-from-local-dns-access"
      ∧ ((Tiers ⟨true, some ⟨false, ""⟩⟩).allowTigeraClusterDNSPolicy
          ⟨"t", "p.", "", "", "", "", "", "", "", "", "", ""⟩).ObjectMeta.Name
          = "p." ++ "cluster-dns"
      ∧ (Tiers ⟨true, some ⟨false, ""⟩⟩).Objects
          ⟨"t", "p.", "", "", "", "", "", "", "", "", "", ""⟩
          = ([Object.tier ((Tiers ⟨true, some ⟨false, ""⟩⟩).allowTigeraTier
                ⟨"t", "p.", "", "", "", "", "", "", "", "", "", ""⟩),
                Object.networkPolicy p, Object.networkPolicy q],
             [Object.networkPolicy ((Tiers ⟨true, some ⟨false, ""⟩⟩).allowTigeraClusterDNSPolicy
                ⟨"t", "p.", "", "", "", "", "", "", "", "", "", ""⟩)]) :=
  Objects_present_eq ⟨"t", "p.", "", "", "", "", "", "", "", "", "", ""⟩
    ⟨true, some ⟨false, ""⟩⟩ (by decide)

/-- C5, the code at the failing inputs: `getPolicyNamespaceAndSelector`
returns the selector expression first and the namespace second, while both
builders bind the first result to the namespace and the second to the
selector; so with `Openshift = true` each of the three access policies has
`Namespace = "dns.operator.openshift.io/daemonset-dns == 'default'"` and
`Selector = "openshift-dns"`, and with `Openshift = false` it has
`Namespace = "k8s-app == 'kube-dns'"` and `Selector = "kube-system"`, which
are not the namespace and the selector of the claim. -/
theorem policies_namespace_selector_swapped (I : Imports) (cfg : Config) :
    ((Tiers cfg).allowTigeraClusterDNSPolicy I
          :: (Tiers cfg).allowTigeraClusterDNSNodeLocalCachePolicy I).map
        (fun p => (p.ObjectMeta.Namespace, p.Spec.Selector))
      = List.replicate 3
          (if cfg.Openshift then
            ("dns.operator.openshift.io/daemonset-dns == 'default'", "openshift-dns")
          else
            ("k8s-app == 'kube-dns'", "kube-system"))
      ∧ ((Tiers cfg).allowTigeraClusterDNSPolicy I).ObjectMeta.Namespace
          ≠ (if cfg.Openshift then "openshift-dns" else "kube-system")
      ∧ ((Tiers cfg).allowTigeraClusterDNSPolicy I).Spec.Selector
          ≠ (if cfg.Openshift then "dns.operator.openshift.io/daemonset-dns == 'default'"
             else "k8s-app == 'kube-dns'") := by
  obtain ⟨openshift, st⟩ := cfg
  cases openshift <;>
    simp [tiersComponent.allowTigeraClusterDNSPolicy,
      tiersComponent.allowTigeraClusterDNSNodeLocalCachePolicy,
      tiersComponent.getPolicyNamespaceAndSelector, Tiers, List.replicate]

end tiers

/-! ## Theorems about package `dns` -/

namespace dns

theorem captures_concat (lines : List String) (text : String) :
    captures (lines ++ [text])
      = captures lines ++ (match FindStringSubmatch text with
                           | some g => [g]
                           | none => []) := by
  unfold captures
  rw [List.filterMap_append]
  cases h : FindStringSubmatch text <;> simp [List.filterMap, h]

/-- The loop of `GetClusterDomain` leaves in `clusterDomain` the suffix of the
last matching line, or the initial value when no line matches. -/
theorem foldl_scanStep (lines : List String) (init : String) :
    lines.foldl scanStep init = (lastCapture lines).getD init := by
  induction lines using List.reverseRecOn with
  | nil => rfl
  | append_singleton lines text ih =>
    rw [List.foldl_append, List.foldl_cons, List.foldl_nil, ih]
    unfold lastCapture scanStep
    rw [captures_concat]
    cases h : FindStringSubmatch text with
    | none => simp [lastCapture]
    | some g => simp

theorem captures_eq_nil {lines : List String}
    (h : ∀ l ∈ lines, FindStringSubmatch l = none) : captures lines = [] := by
  unfold captures
  rw [List.filterMap_eq_nil_iff]
  exact h

/-- On a file scanned without error, `GetClusterDomain` is decided by the
suffix of the last matching line: it returns it when there is one and it is
not empty. -/
theorem GetClusterDomain_of_lastCapture {ε : Type} (lines : List String) (g : String)
    (hlast : lastCapture lines = some g) (hne : g ≠ "") :
    GetClusterDomain (ResolvConf.opened lines none : ResolvConf ε) = (g, none) := by
  simp only [GetClusterDomain, foldl_scanStep, hlast, Option.getD_some]
  rw [if_neg hne]

/-- C6, counterexample: in the file with the two lines `search a svc.x.y` and
`search a svc.`, read without error, both lines match the pattern and the
last matching line captures the empty suffix; `GetClusterDomain` does not
succeed on it but returns the "failed to find cluster domain" error. -/
theorem GetClusterDomain_empty_last_suffix :
    FindStringSubmatch "search a svc.x.y" = some "x.y"
      ∧ FindStringSubmatch "search a svc." = some ""
      ∧ lastCapture ["search a svc.x.y", "search a svc."] = some ""
      ∧ GetClusterDomain (ResolvConf.opened ["search a svc.x.y", "search a svc."] none :
            ResolvConf Unit)
          = ("", some notFound)
      ∧ (GetClusterDomain (ResolvConf.opened ["search a svc.x.y", "search a svc."] none :
            ResolvConf Unit)).2 ≠ none := by
  decide

/-- C6, amended: for every resolver file scanned without error in which at
least one line matches the pattern and the suffix captured from the last
matching line in file order is not empty, `GetClusterDomain` succeeds and
returns that suffix, whatever earlier matching lines captured. -/
theorem GetClusterDomain_last_match {ε : Type} (lines : List String) (g : String)
    (hlast : lastCapture lines = some g) (hne : g ≠ "") :
    GetClusterDomain (ResolvConf.opened lines none : ResolvConf ε) = (g, none) :=
  GetClusterDomain_of_lastCapture lines g hlast hne

/-- Witness for C6 amended: two matching lines with different suffixes, then
a line that does not match. -/
theorem GetClusterDomain_last_match_witness :
    GetClusterDomain (ResolvConf.opened
        ["search a svc.first.example", "search b svc.cluster.local", "nameserver 10.96.0.10"]
        none : ResolvConf Unit)
      = ("cluster.local", none) :=
  GetClusterDomain_last_match
    ["search a svc.first.example", "search b svc.cluster.local", "nameserver 10.96.0.10"]
    "cluster.local" (by decide) (by decide)

/-- C7: for every resolver file scanned without error in which no line
matches the pattern, `GetClusterDomain` returns the "failed to find cluster
domain" error (and the empty string); and for every file, whenever
`GetClusterDomain` returns the `nil` error the string it returns is not
empty. -/
theorem GetClusterDomain_not_found {ε : Type} :
    (∀ lines : List String, (∀ l ∈ lines, FindStringSubmatch l = none) →
        GetClusterDomain (ResolvConf.opened lines none : ResolvConf ε)
          = ("", some (GoError.errorf "failed to find cluster domain in resolv.conf")))
      ∧ ∀ resolvConf : ResolvConf ε,
          (GetClusterDomain resolvConf).2 = none → (GetClusterDomain resolvConf).1 ≠ "" := by
  constructor
  · intro lines h
    simp [GetClusterDomain, foldl_scanStep, lastCapture, captures_eq_nil h]
  · intro resolvConf
    cases resolvConf with
    | openFails err => simp [GetClusterDomain]
    | opened lines scanErr =>
      cases scanErr with
      | some err => simp [GetClusterDomain]
      | none =>
        by_cases hcd : lines.foldl scanStep "" = ""
        · simp [GetClusterDomain, hcd]
        · simp [GetClusterDomain, hcd]

/-- Witness for C7: a file without a `search` line fails with the error, and
a file whose call succeeds returns a non-empty string. -/
theorem GetClusterDomain_not_found_witness :
    GetClusterDomain (ResolvConf.opened ["nameserver 10.96.0.10", "options ndots:5"] none :
          ResolvConf Unit)
        = ("", some (GoError.errorf "failed to find cluster domain in resolv.conf"))
      ∧ (GetClusterDomain (ResolvConf.opened ["search ns.svc.cluster.local svc.cluster.local"]
          none : ResolvConf Unit)).1 ≠ "" :=
  ⟨GetClusterDomain_not_found.1 ["nameserver 10.96.0.10", "options ndots:5"] (by decide),
   GetClusterDomain_not_found.2
     (ResolvConf.opened ["search ns.svc.cluster.local svc.cluster.local"] none) (by decide)⟩

/-- C8, counterexample: a file that holds the line
`search foo svc.example.com bar` followed by the matching line
`search foo svc.cluster.local` yields `"cluster.local"`, and a file that holds
the line and whose scan ends with an error yields that error and the empty
string; neither call returns `"example.com"`. -/
theorem GetClusterDomain_example_line_overridden :
    GetClusterDomain (ResolvConf.opened
          ["search foo svc.example.com bar", "search foo svc.cluster.local"] none :
          ResolvConf Unit)
        = ("cluster.local", none)
      ∧ GetClusterDomain (ResolvConf.opened ["search foo svc.example.com bar"] (some ()) :
          ResolvConf Unit)
        = ("", some (GoError.external ())) := by
  decide

/-- C8, amended: for every resolver file scanned without error that contains
the line `search foo svc.example.com bar`, with any lines before it and with
no line after it that matches the pattern, `GetClusterDomain` returns
`"example.com"`. -/
theorem GetClusterDomain_example_line {ε : Type} (before after : List String)
    (hafter : ∀ l ∈ after, FindStringSubmatch l = none) :
    GetClusterDomain
        (ResolvConf.opened (before ++ "search foo svc.example.com bar" :: after) none :
          ResolvConf ε)
      = ("example.com", none) := by
  apply GetClusterDomain_of_lastCapture
  · have hline : FindStringSubmatch "search foo svc.example.com bar" = some "example.com" := by
      decide
    unfold lastCapture captures
    rw [List.filterMap_append, List.filterMap_cons, hline]
    have hnil := captures_eq_nil hafter
    unfold captures at hnil
    rw [hnil, List.getLast?_append]
    rfl
  · decide

/-- Witness for C8 amended: the line between an earlier matching line and a
later line that does not match. -/
theorem GetClusterDomain_example_line_witness :
    GetClusterDomain
        (ResolvConf.opened
          (["search a svc.cluster.local"] ++ "search foo svc.example.com bar"
            :: ["nameserver 10.96.0.10"]) none : ResolvConf Unit)
      = ("example.com", none) :=
  GetClusterDomain_example_line ["search a svc.cluster.local"] ["nameserver 10.96.0.10"]
    (by decide)

/-- C9: for all strings, `GetServiceDNSNames` returns exactly the four names
`name`, `name.namespace`, `name.namespace.svc` and
`name.namespace.svc.clusterDomain` in that order, the arguments passing
through verbatim; for `("web", "ns", "cluster.local")` these are `web`,
`web.ns`, `web.ns.svc` and `web.ns.svc.cluster.local`. -/
theorem GetServiceDNSNames_eq (name namespace_ clusterDomain : String) :
    GetServiceDNSNames name namespace_ clusterDomain
        = [ name,
            name ++ "." ++ namespace_,
            name ++ "." ++ namespace_ ++ ".svc",
            name ++ "." ++ namespace_ ++ ".svc." ++ clusterDomain ]
      ∧ GetServiceDNSNames "web" "ns" "cluster.local"
        = ["web", "web.ns", "web.ns.svc", "web.ns.svc.cluster.local"] := by
  constructor
  · simp [GetServiceDNSNames, Sprintf, sprintfAux, String.ext_iff]
  · decide

/-- C10: `GetClusterDNSService` makes one `Get` call, with the zero-valued
service and the key whose name is `openshift-dns` when `isOpenShift` is true
and `kube-dns` when it is false and whose namespace is empty; when the call
returns an error the result is no object and that error, and otherwise it is
the object as filled by the call and the `nil` error. Against a directory
that answers from a lookup function and records the keys it is asked for,
the one key recorded is that key, a lookup error comes back unchanged and a
found object comes back with the `nil` error. -/
theorem GetClusterDNSService_spec {σ ε Service : Type} :
    (∀ (k8sClient : Client σ ε Service) (zero : Service) (isOpenShift : Bool) (st : σ),
        GetClusterDNSService k8sClient zero isOpenShift st
          = (match (k8sClient.Get (clusterDNSServiceKey isOpenShift) zero st).1.2 with
             | some e => (none, some e)
             | none =>
               (some (k8sClient.Get (clusterDNSServiceKey isOpenShift) zero st).1.1, none),
             (k8sClient.Get (clusterDNSServiceKey isOpenShift) zero st).2))
      ∧ ∀ (lookup : ObjectKey → Except ε Service) (zero : Service) (isOpenShift : Bool)
          (asked : List ObjectKey),
          GetClusterDNSService (lookupClient lookup) zero isOpenShift asked
            = (match lookup (clusterDNSServiceKey isOpenShift) with
               | .error e => (none, some e)
               | .ok found => (some found, none),
               asked ++ [clusterDNSServiceKey isOpenShift]) := by
  constructor
  · intro k8sClient zero isOpenShift st
    have hkey : ({ Name := if isOpenShift then "openshift-dns" else "kube-dns" } : ObjectKey)
        = clusterDNSServiceKey isOpenShift := rfl
    obtain ⟨get⟩ := k8sClient
    simp only [GetClusterDNSService, hkey]
    generalize get (clusterDNSServiceKey isOpenShift) zero st = r
    obtain ⟨⟨svc, err⟩, st'⟩ := r
    cases err <;> rfl
  · intro lookup zero isOpenShift asked
    have hkey : ({ Name := if isOpenShift then "openshift-dns" else "kube-dns" } : ObjectKey)
        = clusterDNSServiceKey isOpenShift := rfl
    simp only [GetClusterDNSService, lookupClient, hkey]
    generalize lookup (clusterDNSServiceKey isOpenShift) = r
    cases r <;> rfl

end dns

/-! ## Further theorems about package `tiers` -/

namespace tiers

/-- The three access policies that `Objects` hands out, whatever the side. -/
theorem policiesOf_Objects_subset (I : Imports) (cfg : Config) (p : NetworkPolicy)
    (hp : p ∈ policiesOf ((Tiers cfg).Objects I).1 ++ policiesOf ((Tiers cfg).Objects I).2) :
    p ∈ (Tiers cfg).allowTigeraClusterDNSPolicy I
          :: (Tiers cfg).allowTigeraClusterDNSNodeLocalCachePolicy I := by
  obtain ⟨openshift, st⟩ := cfg
  cases st <;>
    simp [tiersComponent.Objects, Tiers, ToRuntimeObjects, policiesOf,
      tiersComponent.allowTigeraClusterDNSNodeLocalCachePolicy] at hp ⊢ <;>
    tauto

/-- Each of the three access policies has the namespace and the selector that
`getPolicyNamespaceAndSelector` returns, in the order it returns them. -/
theorem namespaceAndSelector_of_mem (I : Imports) (cfg : Config) (p : NetworkPolicy)
    (hp : p ∈ (Tiers cfg).allowTigeraClusterDNSPolicy I
          :: (Tiers cfg).allowTigeraClusterDNSNodeLocalCachePolicy I) :
    namespaceAndSelector p = (Tiers cfg).getPolicyNamespaceAndSelector := by
  simp [tiersComponent.allowTigeraClusterDNSPolicy,
    tiersComponent.allowTigeraClusterDNSNodeLocalCachePolicy] at hp
  rcases hp with rfl | rfl | rfl <;> rfl

/-- C12: for every `Config`, every network policy in `toCreate` or in
`toDelete` of `Objects` has `Spec.Order` pointing to
`networkpolicy.HighPrecedenceOrder` and `Spec.Tier` equal to
`networkpolicy.TigeraComponentTierName`, which is the name of the
tier-definition object built by `allowTigeraTier`. -/
theorem Objects_policies_order_and_tier (I : Imports) (cfg : Config) (p : NetworkPolicy)
    (hp : p ∈ policiesOf ((Tiers cfg).Objects I).1 ++ policiesOf ((Tiers cfg).Objects I).2) :
    p.Spec.Order = some OrderVar.HighPrecedenceOrder
      ∧ p.Spec.Tier = I.TigeraComponentTierName
      ∧ p.Spec.Tier = ((Tiers cfg).allowTigeraTier I).ObjectMeta.Name := by
  have hmem := policiesOf_Objects_subset I cfg p hp
  simp [tiersComponent.allowTigeraClusterDNSPolicy,
    tiersComponent.allowTigeraClusterDNSNodeLocalCachePolicy] at hmem
  rcases hmem with rfl | rfl | rfl <;> exact ⟨rfl, rfl, rfl⟩

/-- Witness for C12: the cluster-DNS policy deleted when a cache state is
present. -/
theorem Objects_policies_order_and_tier_witness :
    ((Tiers ⟨false, some ⟨true, "10.96.0.10"⟩⟩).allowTigeraClusterDNSPolicy
          ⟨"allow-tigera", "allow-tigera.", "", "", "", "", "", "", "", "", "", ""⟩).Spec.Order
        = some OrderVar.HighPrecedenceOrder
      ∧ ((Tiers ⟨false, some ⟨true, "10.96.0.10"⟩⟩).allowTigeraClusterDNSPolicy
          ⟨"allow-tigera", "allow-tigera.", "", "", "", "", "", "", "", "", "", ""⟩).Spec.Tier
        = "allow-tigera"
      ∧ ((Tiers ⟨false, some ⟨true, "10.96.0.10"⟩⟩).allowTigeraClusterDNSPolicy
          ⟨"allow-tigera", "allow-tigera.", "", "", "", "", "", "", "", "", "", ""⟩).Spec.Tier
        = ((Tiers ⟨false, some ⟨true, "10.96.0.10"⟩⟩).allowTigeraTier
          ⟨"allow-tigera", "allow-tigera.", "", "", "", "", "", "", "", "", "", ""⟩).ObjectMeta.Name :=
  Objects_policies_order_and_tier
    ⟨"allow-tigera", "allow-tigera.", "", "", "", "", "", "", "", "", "", ""⟩
    ⟨false, some ⟨true, "10.96.0.10"⟩⟩ _ (by decide)

/-- C13: for every `Config`, any two network policies in `toCreate` and
`toDelete` of one call to `Objects` carry the same pair of namespace and
selector; and for two configurations that differ only in `Openshift`, the
pair of every policy handed out under `Openshift = true` differs from the
pair of every policy handed out under `Openshift = false`. -/
theorem Objects_policies_same_pair (I : Imports) :
    (∀ (cfg : Config) (p q : NetworkPolicy),
        p ∈ policiesOf ((Tiers cfg).Objects I).1 ++ policiesOf ((Tiers cfg).Objects I).2 →
        q ∈ policiesOf ((Tiers cfg).Objects I).1 ++ policiesOf ((Tiers cfg).Objects I).2 →
        namespaceAndSelector p = namespaceAndSelector q)
      ∧ ∀ (st : Option dns.DNSNodeLocalCacheState) (p q : NetworkPolicy),
          p ∈ policiesOf ((Tiers ⟨true, st⟩).Objects I).1
              ++ policiesOf ((Tiers ⟨true, st⟩).Objects I).2 →
          q ∈ policiesOf ((Tiers ⟨false, st⟩).Objects I).1
              ++ policiesOf ((Tiers ⟨false, st⟩).Objects I).2 →
          namespaceAndSelector p ≠ namespaceAndSelector q := by
  constructor
  · intro cfg p q hp hq
    rw [namespaceAndSelector_of_mem I cfg p (policiesOf_Objects_subset I cfg p hp),
      namespaceAndSelector_of_mem I cfg q (policiesOf_Objects_subset I cfg q hq)]
  · intro st p q hp hq
    rw [namespaceAndSelector_of_mem I _ p (policiesOf_Objects_subset I _ p hp),
      namespaceAndSelector_of_mem I _ q (policiesOf_Objects_subset I _ q hq)]
    simp [tiersComponent.getPolicyNamespaceAndSelector, Tiers]

/-- Witness for C13: with an absent cache state, the created cluster-DNS
policy and a deleted node-local-cache policy agree, and the cluster-DNS
policies of the two platforms differ. -/
theorem Objects_policies_same_pair_witness :
    namespaceAndSelector ((Tiers ⟨false, none⟩).allowTigeraClusterDNSPolicy
          ⟨"allow-tigera", "allow-tigera.", "", "", "", "", "", "", "", "", "", ""⟩)
        = namespaceAndSelector
            { TypeMeta := { Kind := "NetworkPolicy", APIVersion := "projectcalico.org/v3" }
              ObjectMeta := { Name := "allow-tigera.local-dns-access"
                              Namespace := "k8s-app == 'kube-dns'" }
              Spec := { Order := some OrderVar.HighPrecedenceOrder
                        Tier := "allow-tigera"
                        Selector := "kube-system" } }
      ∧ namespaceAndSelector ((Tiers ⟨true, none⟩).allowTigeraClusterDNSPolicy
          ⟨"allow-tigera", "allow-tigera.", "", "", "", "", "", "", "", "", "", ""⟩)
        ≠ namespaceAndSelector ((Tiers ⟨false, none⟩).allowTigeraClusterDNSPolicy
          ⟨"allow-tigera", "allow-tigera.", "", "", "", "", "", "", "", "", "", ""⟩) :=
  ⟨(Objects_policies_same_pair
      ⟨"allow-tigera", "allow-tigera.", "", "", "", "", "", "", "", "", "", ""⟩).1
      ⟨false, none⟩ _ _ (by decide) (by decide),
   (Objects_policies_same_pair
      ⟨"allow-tigera", "allow-tigera.", "", "", "", "", "", "", "", "", "", ""⟩).2
      none _ _ (by decide) (by decide)⟩

/-- C14: the result of `Objects` depends only on the `Openshift` flag and on
whether `DNSLocalCacheState` is present: two configurations that agree on
both yield equal `toCreate` and equal `toDelete` sequences, element by
element and in the same order, whatever the `Enabled` flags and the IPs of
their states. -/
theorem Objects_congr (I : Imports) (cfg cfg' : Config)
    (hos : cfg.Openshift = cfg'.Openshift)
    (hpresent : cfg.DNSLocalCacheState.isSome = cfg'.DNSLocalCacheState.isSome) :
    (Tiers cfg).Objects I = (Tiers cfg').Objects I := by
  obtain ⟨openshift, st⟩ := cfg
  obtain ⟨openshift', st'⟩ := cfg'
  simp only at hos hpresent
  subst hos
  cases st <;> cases st' <;> simp at hpresent <;> rfl

/-- Witness for C14: two present states that differ in `Enabled` and in the
IP. -/
theorem Objects_congr_witness :
    (Tiers ⟨true, some ⟨true, "10.96.0.10"⟩⟩).Objects
        ⟨"allow-tigera", "allow-tigera.", "", "", "", "", "", "", "", "", "", ""⟩
      = (Tiers ⟨true, some ⟨false, ""⟩⟩).Objects
        ⟨"allow-tigera", "allow-tigera.", "", "", "", "", "", "", "", "", "", ""⟩ :=
  Objects_congr ⟨"allow-tigera", "allow-tigera.", "", "", "", "", "", "", "", "", "", ""⟩
    ⟨true, some ⟨true, "10.96.0.10"⟩⟩ ⟨true, some ⟨false, ""⟩⟩ rfl rfl

end tiers

/-! ## Further theorems about package `dns` -/

namespace dns

/-- C15: when opening the file fails, `GetClusterDomain` returns the open
error and the empty string; when the scan ends with an error it returns
that scan error and the empty string, whatever the lines read before the
failure captured; an error handed over by the file or the scanner is never
the "failed to find cluster domain" error. So it is for the file whose only
line `search a svc.cluster.local` matches and whose scan then fails. -/
theorem GetClusterDomain_io_errors {ε : Type} :
    (∀ err : ε,
        GetClusterDomain (ResolvConf.openFails err) = ("", some (GoError.external err)))
      ∧ (∀ (lines : List String) (err : ε),
          GetClusterDomain (ResolvConf.opened lines (some err))
            = ("", some (GoError.external err)))
      ∧ (∀ err : ε, GoError.external err
          ≠ GoError.errorf "failed to find cluster domain in resolv.conf")
      ∧ lastCapture ["search a svc.cluster.local"] = some "cluster.local"
      ∧ GetClusterDomain (ResolvConf.opened ["search a svc.cluster.local"] (some ()) :
            ResolvConf Unit)
          = ("", some (GoError.external ())) := by
  refine ⟨fun _ => rfl, fun _ _ => rfl, fun _ h => ?_, by decide, rfl⟩
  cases h

theorem utf8ByteSize_go_append (s t : List Char) :
    String.utf8ByteSize.go (s ++ t)
      = String.utf8ByteSize.go s + String.utf8ByteSize.go t := by
  induction s with
  | nil => simp [String.utf8ByteSize.go]
  | cons c s ih => simp [String.utf8ByteSize.go, ih]; omega

/-- Appending a non-empty string makes a string longer, in characters and in
bytes, and the shorter one begins the longer one. -/
theorem properlyBegins_append (a t : String) (ht : t.data ≠ []) :
    ProperlyBegins a (a ++ t) ∧ a.length < (a ++ t).length
      ∧ a.utf8ByteSize < (a ++ t).utf8ByteSize ∧ a ≠ a ++ t := by
  have hlen : 0 < t.data.length := List.length_pos.mpr ht
  have hbytes : 0 < String.utf8ByteSize.go t.data := by
    cases h : t.data with
    | nil => exact absurd h ht
    | cons c cs =>
      have := Char.utf8Size_pos c
      simp only [String.utf8ByteSize.go]
      omega
  have hlt : a.length < (a ++ t).length := by
    rw [String.length_append]
    have htl : t.length = t.data.length := rfl
    omega
  refine ⟨⟨?_, ?_⟩, hlt, ?_, ?_⟩
  · rw [String.data_append]
    exact List.prefix_append _ _
  · simp only [String.data_append, List.length_append]
    omega
  · show String.utf8ByteSize.go a.data < String.utf8ByteSize.go (a ++ t).data
    rw [String.data_append, utf8ByteSize_go_append]
    omega
  · intro h
    rw [← h] at hlt
    exact Nat.lt_irrefl _ hlt

/-- The four names as concatenations. -/
theorem GetServiceDNSNames_append (name namespace_ clusterDomain : String) :
    GetServiceDNSNames name namespace_ clusterDomain
      = [ name,
          name ++ ("." ++ namespace_),
          name ++ ("." ++ namespace_) ++ ".svc",
          name ++ ("." ++ namespace_) ++ ".svc" ++ ("." ++ clusterDomain) ] := by
  simp [GetServiceDNSNames, Sprintf, sprintfAux, String.ext_iff]

/-- C16: for all strings, each of the four names returned by
`GetServiceDNSNames` is a proper prefix of the next one, so their lengths, in
characters and in bytes, are strictly increasing and the four names are
pairwise distinct. -/
theorem GetServiceDNSNames_increasing (name namespace_ clusterDomain : String) :
    ∃ a b c d,
      GetServiceDNSNames name namespace_ clusterDomain = [a, b, c, d]
      ∧ ProperlyBegins a b ∧ ProperlyBegins b c ∧ ProperlyBegins c d
      ∧ a.length < b.length ∧ b.length < c.length ∧ c.length < d.length
      ∧ a.utf8ByteSize < b.utf8ByteSize ∧ b.utf8ByteSize < c.utf8ByteSize
      ∧ c.utf8ByteSize < d.utf8ByteSize
      ∧ [a, b, c, d].Pairwise (fun x y => x ≠ y) := by
  have h1 := properlyBegins_append name ("." ++ namespace_) (by simp)
  have h2 := properlyBegins_append (name ++ ("." ++ namespace_)) ".svc" (by decide)
  have h3 := properlyBegins_append (name ++ ("." ++ namespace_) ++ ".svc")
    ("." ++ clusterDomain) (by simp)
  refine ⟨_, _, _, _, GetServiceDNSNames_append name namespace_ clusterDomain,
    h1.1, h2.1, h3.1, h1.2.1, h2.2.1, h3.2.1, h1.2.2.1, h2.2.2.1, h3.2.2.1, ?_⟩
  have hne : ∀ x y : String, x.length < y.length → x ≠ y := by
    intro x y hxy hEq
    rw [hEq] at hxy
    exact Nat.lt_irrefl _ hxy
  have l1 := h1.2.1
  have l2 := h2.2.1
  have l3 := h3.2.1
  simp only [List.pairwise_cons, List.mem_cons, List.mem_singleton, List.not_mem_nil,
    List.Pairwise.nil, and_true, forall_eq_or_imp, forall_eq, IsEmpty.forall_iff,
    implies_true]
  refine ⟨⟨hne _ _ l1, hne _ _ (by omega), hne _ _ (by omega)⟩,
    ⟨hne _ _ l2, hne _ _ (by omega)⟩, hne _ _ l3⟩

end dns

/-! ## Theorems about the matcher of `GetClusterDomain` -/

namespace dns

theorem matchLit_eq_ite (lit s : List Char) :
    matchLit lit s = if lit.isPrefixOf s then some (s.drop lit.length) else none := by
  induction lit generalizing s with
  | nil => simp [matchLit]
  | cons l lit ih =>
    cases s with
    | nil => simp [matchLit]
    | cons c s =>
      by_cases hlc : l = c
      · simp [matchLit, hlc, ih]
      · simp [matchLit, hlc]

/-- The tail of the pattern matches at the head of `s` exactly when a token
starts at offset 0, and its group is the suffix of that token. -/
theorem matchSvc_eq_ite (s : List Char) :
    matchSvc s = if svcTokenAt s 0 then some (svcSuffixAt s 0) else none := by
  cases s with
  | nil => rfl
  | cons c s =>
    simp only [matchSvc, svcTokenAt, svcSuffixAt, List.drop_zero, matchLit_eq_ite]
    by_cases hc : isSpace c = true
    · by_cases hp : "svc.".data.isPrefixOf s = true
      · simp [hc, hp, matchGroup]
      · simp [hc, hp]
    · simp [hc]

theorem svcTokenAt_succ (c : Char) (s : List Char) (i : Nat) :
    svcTokenAt (c :: s) (i + 1) = svcTokenAt s i := rfl

theorem svcSuffixAt_succ (c : Char) (s : List Char) (i : Nat) :
    svcSuffixAt (c :: s) (i + 1) = svcSuffixAt s i := rfl

/-- What the lazy part of the pattern captures is the suffix of a token
before which no token starts. -/
theorem matchLazy_eq_some (s g : List Char) (h : matchLazy s = some g) :
    ∃ i, svcTokenAt s i = true ∧ (∀ j < i, svcTokenAt s j = false) ∧ g = svcSuffixAt s i := by
  induction s with
  | nil => simp [matchLazy] at h
  | cons c s ih =>
    rw [matchLazy, matchSvc_eq_ite] at h
    by_cases h0 : svcTokenAt (c :: s) 0 = true
    · simp only [h0, if_true, Option.some.injEq] at h
      exact ⟨0, h0, fun j hj => absurd hj (Nat.not_lt_zero j), h.symm⟩
    · simp only [h0] at h
      by_cases hnl : c = '\n'
      · simp [hnl] at h
      · simp only [hnl, if_false] at h
        obtain ⟨i, hi, hlt, hg⟩ := ih h
        refine ⟨i + 1, hi, ?_, hg⟩
        intro j hj
        cases j with
        | zero => simpa using h0
        | succ k => exact hlt k (Nat.lt_of_succ_lt_succ hj)

/-- The lazy part of the pattern finds the leftmost token when no newline
stands before it. -/
theorem matchLazy_of_leftmost (i : Nat) (s : List Char)
    (hi : svcTokenAt s i = true) (hlt : ∀ j < i, svcTokenAt s j = false)
    (hnl : ∀ c ∈ s.take i, c ≠ '\n') :
    matchLazy s = some (svcSuffixAt s i) := by
  induction i generalizing s with
  | zero =>
    cases s with
    | nil => simp [svcTokenAt] at hi
    | cons c s => rw [matchLazy, matchSvc_eq_ite, hi]; rfl
  | succ k ih =>
    cases s with
    | nil => simp [svcTokenAt] at hi
    | cons c s =>
      have h0 : svcTokenAt (c :: s) 0 = false := hlt 0 (Nat.succ_pos k)
      have hc : c ≠ '\n' := hnl c (by simp)
      rw [matchLazy, matchSvc_eq_ite, h0]
      simp only [Bool.false_eq_true, if_false, hc]
      rw [svcSuffixAt_succ]
      apply ih s hi
      · intro j hj
        exact hlt (j + 1) (Nat.succ_lt_succ hj)
      · intro c' hc'
        exact hnl c' (by simp [hc'])

theorem matchLit_eq_some {lit s r : List Char} (h : matchLit lit s = some r) :
    s = lit ++ r := by
  induction lit generalizing s with
  | nil => simp [matchLit] at h; simp [h]
  | cons l lit ih =>
    cases s with
    | nil => simp [matchLit] at h
    | cons c s =>
      by_cases hlc : l = c
      · simp only [matchLit, hlc, if_true] at h
        rw [hlc, ih h]; rfl
      · simp [matchLit, hlc] at h

theorem matchLit_append (lit s : List Char) : matchLit lit (lit ++ s) = some s := by
  induction lit with
  | nil => rfl
  | cons l lit ih => simp [matchLit, ih]

/-- C17: for a single line, the suffix captured by the matcher of
`GetClusterDomain` contains no whitespace character and is the suffix of the
leftmost whitespace-preceded `svc.` token after `search`; and a line that
begins with `search` and has such a token, with no newline before the
leftmost one, is matched with the suffix of the leftmost one. The line
`search svc.a svc.b` gives `a`. -/
theorem FindStringSubmatch_leftmost :
    (∀ (line g : String), FindStringSubmatch line = some g →
        (∀ c ∈ g.data, isSpace c = false)
        ∧ ∃ rest i, line.data = "search".data ++ rest
            ∧ svcTokenAt rest i = true
            ∧ (∀ j < i, svcTokenAt rest j = false)
            ∧ g.data = svcSuffixAt rest i)
      ∧ (∀ (rest : List Char) (i : Nat), svcTokenAt rest i = true →
          (∀ j < i, svcTokenAt rest j = false) →
          (∀ c ∈ rest.take i, c ≠ '\n') →
          FindStringSubmatch (String.mk ("search".data ++ rest))
            = some (String.mk (svcSuffixAt rest i)))
      ∧ FindStringSubmatch "search svc.a svc.b" = some "a" := by
  refine ⟨?_, ?_, by decide⟩
  · intro line g h
    unfold FindStringSubmatch at h
    cases hlit : matchLit "search".data line.data with
    | none => simp [hlit] at h
    | some rest =>
      rw [hlit] at h
      simp only at h
      cases hlazy : matchLazy rest with
      | none => simp [hlazy] at h
      | some cap =>
        rw [hlazy] at h
        simp only [Option.map_some', Option.some.injEq] at h
        obtain ⟨i, hi, hlt, hcap⟩ := matchLazy_eq_some rest cap hlazy
        have hg : g.data = cap := by rw [← h]
        refine ⟨?_, rest, i, matchLit_eq_some hlit, hi, hlt, hg.trans hcap⟩
        intro c hc
        rw [hg, hcap] at hc
        have := List.mem_takeWhile_imp hc
        simpa using this
  · intro rest i hi hlt hnl
    unfold FindStringSubmatch
    simp only [matchLit_append, matchLazy_of_leftmost i rest hi hlt hnl, Option.map_some']

/-- Witness for C17: in `search foo svc.a svc.b` the matcher captures `a`,
which has no whitespace and is the suffix of the token at offset 4 after
`search`, the leftmost one. -/
theorem FindStringSubmatch_leftmost_witness :
    ((∀ c ∈ "a".data, isSpace c = false)
        ∧ ∃ rest i, "search foo svc.a svc.b".data = "search".data ++ rest
            ∧ svcTokenAt rest i = true
            ∧ (∀ j < i, svcTokenAt rest j = false)
            ∧ "a".data = svcSuffixAt rest i)
      ∧ FindStringSubmatch (String.mk ("search".data ++ " foo svc.a svc.b".data))
          = some (String.mk (svcSuffixAt " foo svc.a svc.b".data 4)) :=
  ⟨FindStringSubmatch_leftmost.1 "search foo svc.a svc.b" "a" (by decide),
   FindStringSubmatch_leftmost.2.1 " foo svc.a svc.b".data 4 (by decide) (by decide)
     (by decide)⟩

end dns

/-! ## Theorems about `createDNSIngressNamespaceSelector` -/

namespace tiers

/-- One pass of the loop appends the quoted name, and a comma unless the
index is the last one. -/
theorem selectorStep_eq (len : Int) (b : String) (k : Nat) (a : String) :
    selectorStep len b (k, a)
      = if (k : Int) ≠ len - 1 then b ++ quoted a ++ "," else b ++ quoted a := by
  by_cases h : (k : Int) = len - 1 <;> simp [selectorStep, quoted, h, String.ext_iff]

/-- A text put before the joined strings can be joined along with them. -/
theorem intercalate_go_append (b acc s : String) (xs : List String) :
    b ++ String.intercalate.go acc s xs = String.intercalate.go (b ++ acc) s xs := by
  induction xs generalizing acc with
  | nil => rfl
  | cons x xs ih =>
    simp only [String.intercalate.go]
    rw [ih, String.append_assoc, String.append_assoc, String.append_assoc]

/-- The loop over a non-empty list appends the quoted names joined by commas. -/
theorem foldl_selectorStep (as : List String) (a b : String) (k : Nat) :
    (List.enumFrom k (a :: as)).foldl (selectorStep ((k + 1 + as.length : Nat) : Int)) b
      = b ++ String.intercalate.go (quoted a) "," (as.map quoted) := by
  induction as generalizing a b k with
  | nil =>
    simp only [List.enumFrom, List.foldl, selectorStep_eq, List.length_nil, List.map_nil,
      String.intercalate.go]
    simp
  | cons a' as ih =>
    have hlen : ((k + 1 + (a' :: as).length : Nat) : Int) = ((k + 1 + 1 + as.length : Nat) : Int) := by
      simp only [List.length_cons]; omega
    rw [hlen, List.enumFrom_cons, List.foldl_cons, selectorStep_eq]
    have hne : (k : Int) ≠ ((k + 1 + 1 + as.length : Nat) : Int) - 1 := by omega
    rw [if_pos hne, ih a' _ (k + 1)]
    simp only [List.map_cons, String.intercalate.go]
    rw [intercalate_go_append, intercalate_go_append]
    simp only [String.append_assoc]

/-- The builder loop and the selector as the claims word it agree on every
list of names. -/
theorem createDNSIngressNamespaceSelector_selectorSpec (namespaces : List String) :
    createDNSIngressNamespaceSelector namespaces = selectorSpec namespaces := by
  cases namespaces with
  | nil => decide
  | cons a as =>
    have hlen : (((a :: as).length : Nat) : Int) = ((0 + 1 + as.length : Nat) : Int) := by
      simp only [List.length_cons]; omega
    simp only [createDNSIngressNamespaceSelector, selectorSpec, List.enum, hlen,
      foldl_selectorStep, List.map_cons, String.intercalate]
    simp [String.ext_iff]

/-- C18: for every list of namespace names, `createDNSIngressNamespaceSelector`
returns the text `projectcalico.org/namespace in` and an opening brace, then
the names each wrapped in single quotes and joined by a single comma, then a
closing brace; for the empty list the braces are empty, and a quote inside a
name passes through unescaped. -/
theorem createDNSIngressNamespaceSelector_eq_spec (namespaces : List String) :
    createDNSIngressNamespaceSelector namespaces = selectorSpec namespaces
      ∧ createDNSIngressNamespaceSelector [] = "projectcalico.org/namespace in \x7b\x7d"
      ∧ createDNSIngressNamespaceSelector ["tigera-dex", "o'neil"]
          = "projectcalico.org/namespace in \x7b'tigera-dex','o'neil'\x7d" := by
  exact ⟨createDNSIngressNamespaceSelector_selectorSpec namespaces, by decide, by decide⟩

/-- C11: for every `Config`, the ingress rules of the cluster-DNS policy are
exactly an `Allow` rule whose source selector is `DNSIngressNamespaceSelector`
(over all namespaces) followed by a `Pass` rule with no source restriction,
its egress rules are exactly one `Allow` rule with no restriction, and no rule
of either list has the action `Deny`. The selector `DNSIngressNamespaceSelector`
is the allow-list of the system namespaces: the label
`projectcalico.org/namespace` is in the set of the eleven names of the static
list, each in single quotes, in the order of the source. -/
theorem allowTigeraClusterDNSPolicy_rules (I : Imports) (cfg : Config) :
    ((Tiers cfg).allowTigeraClusterDNSPolicy I).Spec.Ingress
        = [ { Action := Action.Allow
              Source := { NamespaceSelector := "all()"
                          Selector := DNSIngressNamespaceSelector I }
              Destination := { NamespaceSelector := "", Selector := "" } },
            { Action := Action.Pass
              Source := { NamespaceSelector := "", Selector := "" }
              Destination := { NamespaceSelector := "", Selector := "" } } ]
      ∧ ((Tiers cfg).allowTigeraClusterDNSPolicy I).Spec.Egress
        = [ { Action := Action.Allow
              Source := { NamespaceSelector := "", Selector := "" }
              Destination := { NamespaceSelector := "", Selector := "" } } ]
      ∧ (∀ r ∈ ((Tiers cfg).allowTigeraClusterDNSPolicy I).Spec.Ingress
              ++ ((Tiers cfg).allowTigeraClusterDNSPolicy I).Spec.Egress,
          r.Action ≠ Action.Deny)
      ∧ DNSIngressNamespaceSelector I
        = selectorSpec
            [ I.GuardianNamespace,
              I.ComplianceNamespace,
              I.DexNamespace,
              I.ElasticsearchNamespace,
              I.LogCollectorNamespace,
              I.IntrusionDetectionNamespace,
              I.KibanaNamespace,
              I.ManagerNamespace,
              I.TigeraPrometheusNamespace,
              "tigera-skraper",
              I.APIServerNamespaceEnterprise ]
      ∧ DNSIngressNamespaceSelector I
        = "projectcalico.org/namespace in \x7b"
            ++ "'" ++ I.GuardianNamespace ++ "',"
            ++ "'" ++ I.ComplianceNamespace ++ "',"
            ++ "'" ++ I.DexNamespace ++ "',"
            ++ "'" ++ I.ElasticsearchNamespace ++ "',"
            ++ "'" ++ I.LogCollectorNamespace ++ "',"
            ++ "'" ++ I.IntrusionDetectionNamespace ++ "',"
            ++ "'" ++ I.KibanaNamespace ++ "',"
            ++ "'" ++ I.ManagerNamespace ++ "',"
            ++ "'" ++ I.TigeraPrometheusNamespace ++ "',"
            ++ "'tigera-skraper',"
            ++ "'" ++ I.APIServerNamespaceEnterprise ++ "'"
            ++ "\x7d"
      ∧ DNSIngressNamespaceSelector
          ⟨"allow-tigera", "allow-tigera.", "n1", "n2", "n3", "n4", "n5", "n6", "n7", "n8",
            "n9", "n10"⟩
        = "projectcalico.org/namespace in \x7b'n1','n2','n3','n4','n5','n6','n7','n8','n9','tigera-skraper','n10'\x7d" := by
  refine ⟨rfl, rfl, ?_, ?_, ?_, by decide⟩
  · intro r hr
    simp [tiersComponent.allowTigeraClusterDNSPolicy] at hr
    rcases hr with rfl | rfl | rfl <;> simp
  · exact createDNSIngressNamespaceSelector_selectorSpec _
  · rw [DNSIngressNamespaceSelector, createDNSIngressNamespaceSelector_selectorSpec]
    simp [selectorSpec, quoted, String.intercalate, String.intercalate.go, String.ext_iff]

end tiers
